import Mathlib

/-!
Verification of the thumbnail-editor core (src/App.tsx, src/unnamed/part_000,
src/unnamed/part_001) against its natural-language specification.

Numbers are modelled as exact rationals (JS numbers are floats, but every
claim under study is about exact structural behaviour of the arithmetic).
Strings are modelled as Lean strings.  Ambient browser facilities that the
component reads (the current time, the fetch result, the AI-edit result, the
canvas text-measurement oracle, the regular-expression engine) are passed as
explicit parameters to the embedded handlers.
-/

/-- From src/unnamed/part_000: the six adjustment knobs. -/
structure AdjustmentSettings where
  brightness : ℚ
  contrast : ℚ
  saturation : ℚ
  grayscale : ℚ
  sepia : ℚ
  blur : ℚ
deriving DecidableEq

/-- From src/unnamed/part_000: the neutral defaults (100,100,100,0,0,0). -/
def DEFAULT_ADJUSTMENTS : AdjustmentSettings :=
  { brightness := 100, contrast := 100, saturation := 100,
    grayscale := 0, sepia := 0, blur := 0 }

/-- From src/unnamed/part_000: one text overlay record. -/
structure TextOverlay where
  id : String
  text : String
  x : ℚ
  y : ℚ
  color : String
  fontSize : ℚ
  fontFamily : String
deriving DecidableEq

/-- The React state cells of the App component (src/App.tsx lines 45-57),
gathered into one record.  `dragOffset` is split into its two fields. -/
structure AppState where
  youtubeUrl : String
  currentImage : Option String
  adjustments : AdjustmentSettings
  aiPrompt : String
  isProcessing : Bool
  errorMsg : Option String
  textOverlays : List TextOverlay
  newText : String
  selectedTextId : Option String
  isDragging : Bool
  dragOffsetX : ℚ
  dragOffsetY : ℚ
deriving DecidableEq

/-- The initial state of the component (the useState initialisers,
src/App.tsx lines 45-57). -/
def initialState : AppState :=
  { youtubeUrl := "", currentImage := none, adjustments := DEFAULT_ADJUSTMENTS,
    aiPrompt := "", isProcessing := false, errorMsg := none, textOverlays := [],
    newText := "", selectedTextId := none, isDragging := false,
    dragOffsetX := 0, dragOffsetY := 0 }

/-- The JS `String.prototype.trim()`: strip leading and trailing whitespace.
(Defined on the character list so that it evaluates by kernel reduction;
`String.trim` of core is extensionally the same but is defined by
well-founded recursion on byte positions.) -/
def jsTrim (s : String) : String :=
  ⟨((s.data.dropWhile Char.isWhitespace).reverse.dropWhile Char.isWhitespace).reverse⟩

/-- `getYouTubeID` (src/App.tsx lines 8-12).  The regular-expression engine is
the JS runtime, external to this repository, so the content of capture group 7
of a successful match is abstracted as a parameter `rm` (returning `none` when
the regex does not match); the logic of the function itself — keep the capture
only when it has exactly 11 characters — is transcribed exactly:
`return (match && match[7].length === 11) ? match[7] : null`. -/
def getYouTubeID (rm : String → Option String) (url : String) : Option String :=
  match rm url with
  | some g7 => if g7.length = 11 then some g7 else none
  | none => none

/-- `handleFetchYouTube` (src/App.tsx lines 65-92), observed at completion.
`fetchResult` is the outcome of the external fetch: `some objectUrl` when the
response was ok, `none` for a thrown error (non-ok response or network
failure).  On success the image is installed, adjustments reset, overlays and
selection cleared; the `finally` block clears the busy flag. -/
def handleFetchYouTube (rm : String → Option String) (fetchResult : Option String)
    (s : AppState) : AppState :=
  match getYouTubeID rm s.youtubeUrl with
  | none => { s with errorMsg := some "INVALID TARGET URL" }
  | some _ =>
    match fetchResult with
    | some objectUrl =>
      { s with errorMsg := none, currentImage := some objectUrl,
               adjustments := DEFAULT_ADJUSTMENTS, textOverlays := [],
               selectedTextId := none, isProcessing := false }
    | none =>
      { s with errorMsg := some "CONNECTION FAILED (Check URL or network)",
               isProcessing := false }

/-- `handleReset` (src/App.tsx lines 94-98). -/
def handleReset (s : AppState) : AppState :=
  { s with adjustments := DEFAULT_ADJUSTMENTS, textOverlays := [],
           selectedTextId := none }

/-- `handleAddText` (src/App.tsx lines 104-119).  `time` is the ambient
`Date.now()` value in milliseconds; the new id is its decimal string.  A text
that trims to the empty string is rejected up front (`if (!newText.trim())
return`). -/
def handleAddText (time : Nat) (s : AppState) : AppState :=
  if (jsTrim s.newText) = "" then s
  else
    let newId := Nat.repr time
    { s with
      textOverlays := s.textOverlays ++
        [{ id := newId, text := s.newText, x := 50, y := 50,
           color := "#00ff00", fontSize := 48, fontFamily := "Share Tech Mono" }],
      newText := "",
      selectedTextId := some newId }

/-- The delete button of an overlay row (src/App.tsx line 521):
`setTextOverlays(prev => prev.filter(p => p.id !== t.id))` with
`e.stopPropagation()`, so the enclosing row click (which would select) does
not run.  Nothing else is updated. -/
def deleteOverlay (tid : String) (s : AppState) : AppState :=
  { s with textOverlays := s.textOverlays.filter (fun p => !(p.id == tid)) }

/-- `handleGeminiEdit` (src/App.tsx lines 280-299), observed at completion.
`geminiResult` is the outcome of the external AI call: `Except.error msg`
models a thrown error (whose message is displayed), `Except.ok img` the new
image.  On success the result is installed, adjustments reset, the overlay
list cleared and the prompt emptied; the `finally` block clears the busy
flag.  Note: `selectedTextId` is not written on this path. -/
def handleGeminiEdit (geminiResult : Except String String) (s : AppState) : AppState :=
  if s.currentImage = none ∨ (jsTrim s.aiPrompt) = "" then s
  else
    match geminiResult with
    | Except.ok newImageBase64 =>
      { s with errorMsg := none, currentImage := some newImageBase64,
               adjustments := DEFAULT_ADJUSTMENTS, textOverlays := [],
               aiPrompt := "", isProcessing := false }
    | Except.error msg =>
      { s with errorMsg := some msg, isProcessing := false }

/-- `handleDownload` (src/App.tsx lines 264-278), observed at completion.  It
renders to the hidden export canvas and triggers a download; no session state
cell other than the busy flag is written, and the busy flag ends `false`. -/
def handleDownload (s : AppState) : AppState :=
  if s.currentImage = none then s
  else { s with isProcessing := false }

/-- The EXECUTE button (src/App.tsx lines 335-341): `disabled={isProcessing}`.
A disabled button never fires its handler, so a click while busy is the
identity on the state. -/
def clickFetch (rm : String → Option String) (fetchResult : Option String)
    (s : AppState) : AppState :=
  if s.isProcessing then s else handleFetchYouTube rm fetchResult s

/-- The EXPORT button (src/App.tsx lines 345-351):
`disabled={!currentImage || isProcessing}`. -/
def clickDownload (s : AppState) : AppState :=
  if s.currentImage = none ∨ s.isProcessing then s else handleDownload s

/-- The COMPILE_EDIT button (src/App.tsx lines 380-386):
`disabled={!currentImage || isProcessing || !aiPrompt}` (the last test is
emptiness of the untrimmed prompt). -/
def clickGeminiEdit (geminiResult : Except String String) (s : AppState) : AppState :=
  if s.currentImage = none ∨ s.isProcessing ∨ s.aiPrompt = "" then s
  else handleGeminiEdit geminiResult s

/-! ### Hit testing and dragging

The canvas text-measurement oracle `ctx.measureText` belongs to the browser,
not to the repository; it is abstracted as a function from the current font
specification string (the value assigned to `ctx.font`) and the text to a
width in pixels. -/

/-- A text measurement oracle: `measure font text` is the width that
`ctx.measureText(text).width` reports with `ctx.font = font`. -/
def TextMeasure : Type := String → String → ℚ

/-- The effective pixel font size of an overlay
(`overlay.fontSize * (canvas.width / 1000)`, src/App.tsx lines 152 and 229). -/
def fontSizePx (o : TextOverlay) (cw : ℚ) : ℚ :=
  o.fontSize * (cw / 1000)

/-- The font string assigned before measuring in the hit-test loop
(src/App.tsx line 153): no generic fallback family. -/
def hitFontSpec (o : TextOverlay) (cw : ℚ) : String :=
  "bold " ++ toString (fontSizePx o cw) ++ "px \"" ++ o.fontFamily ++ "\""

/-- The font string assigned while drawing an overlay (src/App.tsx line 232):
with a trailing `, monospace` fallback. -/
def drawFontSpec (o : TextOverlay) (cw : ℚ) : String :=
  "bold " ++ toString (fontSizePx o cw) ++ "px \"" ++ o.fontFamily ++ "\", monospace"

/-- Pixel anchor of an overlay (`(overlay.x / 100) * canvas.width`,
src/App.tsx lines 158-159 and 241-242). -/
def anchorX (o : TextOverlay) (cw : ℚ) : ℚ := o.x / 100 * cw

/-- Pixel anchor of an overlay, vertical component. -/
def anchorY (o : TextOverlay) (ch : ℚ) : ℚ := o.y / 100 * ch

/-- Width of the hit-test bounding box of an overlay: the measured text width
(src/App.tsx lines 154-155). -/
def hitBoxWidth (m : TextMeasure) (o : TextOverlay) (cw : ℚ) : ℚ :=
  m (hitFontSpec o cw) o.text

/-- Height of the hit-test bounding box: the effective font size
(src/App.tsx line 156, an approximation as the source comment notes). -/
def hitBoxHeight (o : TextOverlay) (cw : ℚ) : ℚ := fontSizePx o cw

/-- The centred point-in-box test of the hit-test loop
(src/App.tsx lines 162-167). -/
def containsPoint (m : TextMeasure) (cw ch : ℚ) (o : TextOverlay) (px py : ℚ) : Bool :=
  let left := anchorX o cw - hitBoxWidth m o cw / 2
  let right := anchorX o cw + hitBoxWidth m o cw / 2
  let top := anchorY o ch - hitBoxHeight o cw / 2
  let bottom := anchorY o ch + hitBoxHeight o cw / 2
  decide (left ≤ px ∧ px ≤ right ∧ top ≤ py ∧ py ≤ bottom)

/-- The collision loop of `handleCanvasMouseDown` (src/App.tsx lines 149-177)
walks the overlay list by descending index and returns at the first hit;
scanning the reversed list with `find?` is that loop verbatim. -/
def hitOverlay (m : TextMeasure) (cw ch : ℚ) (overlays : List TextOverlay)
    (px py : ℚ) : Option TextOverlay :=
  overlays.reverse.find? (fun o => containsPoint m cw ch o px py)

/-- `handleCanvasMouseDown` (src/App.tsx lines 141-180).  `(px, py)` is the
pointer position already converted to bitmap-pixel space by
`getCanvasCoordinates`; `cw`/`ch` are the canvas (bitmap) dimensions.  On a
hit: select, start dragging and record the offset from the pixel anchor; on a
miss: clear the selection. -/
def handleCanvasMouseDown (m : TextMeasure) (cw ch : ℚ) (px py : ℚ)
    (s : AppState) : AppState :=
  if s.currentImage = none then s
  else
    match hitOverlay m cw ch s.textOverlays px py with
    | some o =>
      { s with selectedTextId := some o.id, isDragging := true,
               dragOffsetX := px - anchorX o cw, dragOffsetY := py - anchorY o ch }
    | none => { s with selectedTextId := none }

/-- `handleCanvasMouseMove` (src/App.tsx lines 182-194).  While dragging with
a selection, the new percentage position is recomputed from the pointer minus
the recorded offset, and written into every overlay whose id matches the
selection. -/
def handleCanvasMouseMove (cw ch : ℚ) (px py : ℚ) (s : AppState) : AppState :=
  if !s.isDragging ∨ s.selectedTextId = none then s
  else
    let newX := (px - s.dragOffsetX) / cw * 100
    let newY := (py - s.dragOffsetY) / ch * 100
    { s with textOverlays := s.textOverlays.map (fun t =>
        if some t.id = s.selectedTextId then { t with x := newX, y := newY } else t) }

/-- `handleCanvasMouseUp` (src/App.tsx lines 196-198). -/
def handleCanvasMouseUp (s : AppState) : AppState :=
  { s with isDragging := false }

/-! ### The compositor

`drawToCanvas` (src/App.tsx lines 203-262) is modelled as the list of drawing
commands it issues against the 2d context, in order.  Equal command lists
drive the rasteriser identically, hence produce byte-identical pixels.  The
only place the identity of the target canvas is consulted is the guard
`canvas === canvasRef.current` of the selection box (line 247), modelled by
the boolean `isPreview`. -/

/-- One drawing command issued by `drawToCanvas`. -/
inductive DrawCmd where
  | resize (w h : ℚ)
  | image (src : String) (filter : String) (dx dy : ℚ)
  | text (s : String) (font color : String)
      (shadowColor : String) (shadowBlur shadowOffsetX shadowOffsetY : ℚ)
      (align baseline : String) (x y : ℚ)
  | selectionBox (x y w h : ℚ) (stroke : String) (lineWidth : ℚ) (dash : List ℚ)
deriving DecidableEq

/-- The CSS filter string (src/App.tsx line 221). -/
def filterString (adjs : AdjustmentSettings) : String :=
  "brightness(" ++ toString adjs.brightness ++ "%) contrast(" ++
    toString adjs.contrast ++ "%) saturate(" ++ toString adjs.saturation ++
    "%) grayscale(" ++ toString adjs.grayscale ++ "%) sepia(" ++
    toString adjs.sepia ++ "%) blur(" ++ toString adjs.blur ++ "px)"

/-- Width of the dashed selection outline (src/App.tsx line 249):
measured text width plus 20, under the drawing font. -/
def selBoxWidth (m : TextMeasure) (o : TextOverlay) (cw : ℚ) : ℚ :=
  m (drawFontSpec o cw) o.text + 20

/-- Height of the dashed selection outline (src/App.tsx line 250):
effective font size plus 20. -/
def selBoxHeight (o : TextOverlay) (cw : ℚ) : ℚ := fontSizePx o cw + 20

/-- The commands drawn for one overlay in the forEach of `drawToCanvas`
(src/App.tsx lines 228-257). -/
def overlayCmds (m : TextMeasure) (cw ch : ℚ) (isPreview : Bool)
    (selectionId : Option String) (o : TextOverlay) : List DrawCmd :=
  DrawCmd.text o.text (drawFontSpec o cw) o.color "rgba(0,0,0,1)" 0 4 4
      "center" "middle" (anchorX o cw) (anchorY o ch) ::
  (if selectionId = some o.id ∧ isPreview = true then
    [DrawCmd.selectionBox
      (anchorX o cw - selBoxWidth m o cw / 2)
      (anchorY o ch - selBoxHeight o cw / 2)
      (selBoxWidth m o cw) (selBoxHeight o cw) "#00ff00" 2 [5, 5]]
  else [])

/-- `drawToCanvas` (src/App.tsx lines 203-262) as its command stream: resize
to the natural bitmap size, paint the image under the adjustment filter,
then draw every overlay in insertion order. -/
def drawToCanvas (m : TextMeasure) (isPreview : Bool) (iw ih : ℚ) (imgSrc : String)
    (adjs : AdjustmentSettings) (overlays : List TextOverlay)
    (selectionId : Option String) : List DrawCmd :=
  DrawCmd.resize iw ih ::
  DrawCmd.image imgSrc (filterString adjs) 0 0 ::
  overlays.flatMap (overlayCmds m iw ih isPreview selectionId)

/-! ### Decimal representation of naturals

`Date.now().toString()` is modelled as `Nat.repr`.  The lemmas below recover
the standard facts needed about it: it is injective, because the digit list
it produces evaluates back to its input. -/

/-- Fuel-free decimal digit list of a natural number, most significant digit
first. -/
def decDigits (n : Nat) : List Char :=
  if h : n / 10 = 0 then [Nat.digitChar (n % 10)]
  else decDigits (n / 10) ++ [Nat.digitChar (n % 10)]
termination_by n
decreasing_by exact Nat.div_lt_self (by omega) (by omega)

lemma toDigitsCore_eq_decDigits (fuel n : Nat) (acc : List Char) (h : n < fuel) :
    Nat.toDigitsCore 10 fuel n acc = decDigits n ++ acc := by
  induction fuel generalizing n acc with
  | zero => omega
  | succ f ih =>
    rw [Nat.toDigitsCore]
    by_cases h10 : n / 10 = 0
    · rw [if_pos h10, decDigits, dif_pos h10]
      simp
    · have hlt : n / 10 < n := Nat.div_lt_self (by omega) (by omega)
      rw [if_neg h10, ih (n / 10) _ (by omega)]
      conv_rhs => rw [decDigits, dif_neg h10]
      simp

/-- Numeric value of a digit character. -/
def charDigitVal (c : Char) : Nat := c.toNat - 48

lemma charDigitVal_digitChar : ∀ d, d < 10 → charDigitVal (Nat.digitChar d) = d := by
  decide

/-- Evaluate a decimal digit list back to a natural number. -/
def digitsVal (l : List Char) : Nat := l.foldl (fun a c => 10 * a + charDigitVal c) 0

lemma digitsVal_append_singleton (l : List Char) (c : Char) :
    digitsVal (l ++ [c]) = 10 * digitsVal l + charDigitVal c := by
  simp [digitsVal, List.foldl_append]

lemma digitsVal_decDigits (n : Nat) : digitsVal (decDigits n) = n := by
  induction n using Nat.strong_induction_on with
  | _ n ih =>
    by_cases h10 : n / 10 = 0
    · rw [decDigits, dif_pos h10]
      have h1 : digitsVal [Nat.digitChar (n % 10)] = charDigitVal (Nat.digitChar (n % 10)) := by
        simp [digitsVal]
      rw [h1, charDigitVal_digitChar (n % 10) (by omega)]
      omega
    · have hlt : n / 10 < n := Nat.div_lt_self (by omega) (by omega)
      rw [decDigits, dif_neg h10, digitsVal_append_singleton, ih (n / 10) hlt,
        charDigitVal_digitChar (n % 10) (by omega)]
      omega

lemma natRepr_eq_decDigits (n : Nat) : Nat.repr n = (decDigits n).asString := by
  rw [Nat.repr, Nat.toDigits, toDigitsCore_eq_decDigits (n + 1) n [] (Nat.lt_succ_self n)]
  simp

lemma natRepr_injective : Function.Injective Nat.repr := by
  intro a b h
  rw [natRepr_eq_decDigits, natRepr_eq_decDigits] at h
  have hd : decDigits a = decDigits b := by
    have := congrArg String.data h
    simpa [List.asString] using this
  have := digitsVal_decDigits a
  rw [hd, digitsVal_decDigits] at this
  omega

/-! ### Scanning a reversed list -/

lemma find?_reverse_some {α : Type} (p : α → Bool) (L : List α) (a : α)
    (h : L.reverse.find? p = some a) :
    p a = true ∧ ∃ l1 l2, L = l1 ++ a :: l2 ∧ ∀ x ∈ l2, p x = false := by
  induction L using List.reverseRecOn with
  | nil => simp at h
  | append_singleton l b ih =>
    rw [List.reverse_append, List.reverse_singleton, List.singleton_append] at h
    by_cases hb : p b
    · rw [List.find?_cons_of_pos _ hb] at h
      obtain rfl : b = a := by simpa using h
      exact ⟨hb, l, [], by simp, by simp⟩
    · rw [List.find?_cons_of_neg _ (by simpa using hb)] at h
      obtain ⟨hpa, l1, l2, rfl, hall⟩ := ih h
      refine ⟨hpa, l1, l2 ++ [b], by simp, ?_⟩
      intro x hx
      rcases List.mem_append.mp hx with hx2 | hxb
      · exact hall x hx2
      · obtain rfl : x = b := by simpa using hxb
        simpa using hb

/-! ### Sequences of add operations -/

/-- Run a sequence of add-text interactions: for each pair `(text, time)` the
user types `text` into the input and presses ADD at millisecond `time`. -/
def runAdds (s : AppState) (ops : List (String × Nat)) : AppState :=
  ops.foldl (fun st p => handleAddText p.2 { st with newText := p.1 }) s

/-- The overlays that a sequence of add operations appends: one per operation
whose text does not trim to the empty string. -/
def addedOverlays : List (String × Nat) → List TextOverlay
  | [] => []
  | p :: t =>
    (if (jsTrim p.1) = "" then [] else
      [{ id := Nat.repr p.2, text := p.1, x := 50, y := 50,
         color := "#00ff00", fontSize := 48, fontFamily := "Share Tech Mono" }]) ++
    addedOverlays t

lemma runAdds_textOverlays (ops : List (String × Nat)) (s : AppState) :
    (runAdds s ops).textOverlays = s.textOverlays ++ addedOverlays ops := by
  induction ops generalizing s with
  | nil => simp [runAdds, addedOverlays]
  | cons p t ih =>
    rw [runAdds, List.foldl_cons]
    have hback : ∀ st : AppState,
        List.foldl (fun st p => handleAddText p.2 { st with newText := p.1 }) st t =
          runAdds st t := fun _ => rfl
    by_cases hp : (jsTrim p.1) = ""
    · rw [show handleAddText p.2 { s with newText := p.1 } = { s with newText := p.1 } from
        by simp [handleAddText, hp]]
      rw [hback, ih]
      simp [addedOverlays, hp]
    · rw [show handleAddText p.2 { s with newText := p.1 } =
        { s with newText := "", selectedTextId := some (Nat.repr p.2),
                 textOverlays := s.textOverlays ++
                   [{ id := Nat.repr p.2, text := p.1, x := 50, y := 50,
                      color := "#00ff00", fontSize := 48,
                      fontFamily := "Share Tech Mono" }] } from
        by simp [handleAddText, hp]]
      rw [hback, ih]
      simp [addedOverlays, hp]

/-! ### Adjustment pipeline semantics

The repository only constructs the CSS filter string (src/App.tsx line 221);
the per-pixel semantics of the six filter functions is executed by the
browser, an external collaborator.  The definitions below are therefore
modelled from the spec (its AdjustmentPipeline contract, section 4.1: the
order-fixed stages brightness, contrast, saturation, grayscale, sepia,
Gaussian-style blur with neutral defaults) together with the standard CSS
Filter Effects equations those stage names denote.  Channels are rationals
on the 0..1 scale; amounts are the slider values divided by 100 (blur is a
pixel radius). -/

/-- An RGB colour with rational channels. -/
structure RGB where
  r : ℚ
  g : ℚ
  b : ℚ
deriving DecidableEq

/-- An unbounded bitmap: a colour for every integer pixel coordinate. -/
def BitmapImage : Type := ℤ → ℤ → RGB

/-- Modelled from the spec: the brightness stage is a linear channel scale. -/
def brightnessF (amount : ℚ) (c : RGB) : RGB :=
  ⟨amount * c.r, amount * c.g, amount * c.b⟩

/-- Modelled from the spec: the contrast stage, slope `amount` around the
midtone (CSS slope/intercept form). -/
def contrastF (amount : ℚ) (c : RGB) : RGB :=
  ⟨amount * c.r + (1 - amount) / 2,
   amount * c.g + (1 - amount) / 2,
   amount * c.b + (1 - amount) / 2⟩

/-- Modelled from the spec: the saturation stage (CSS saturate colour
matrix). -/
def saturateF (s : ℚ) (c : RGB) : RGB :=
  ⟨(0.213 + 0.787 * s) * c.r + (0.715 - 0.715 * s) * c.g + (0.072 - 0.072 * s) * c.b,
   (0.213 - 0.213 * s) * c.r + (0.715 + 0.285 * s) * c.g + (0.072 - 0.072 * s) * c.b,
   (0.213 - 0.213 * s) * c.r + (0.715 - 0.715 * s) * c.g + (0.072 + 0.928 * s) * c.b⟩

/-- Modelled from the spec: the grayscale mix (CSS grayscale colour matrix,
written with `a = 1 - amount`). -/
def grayscaleF (amount : ℚ) (c : RGB) : RGB :=
  let a := 1 - amount
  ⟨(0.2126 + 0.7874 * a) * c.r + (0.7152 - 0.7152 * a) * c.g + (0.0722 - 0.0722 * a) * c.b,
   (0.2126 - 0.2126 * a) * c.r + (0.7152 + 0.2848 * a) * c.g + (0.0722 - 0.0722 * a) * c.b,
   (0.2126 - 0.2126 * a) * c.r + (0.7152 - 0.7152 * a) * c.g + (0.0722 + 0.9278 * a) * c.b⟩

/-- Modelled from the spec: the sepia tint (CSS sepia colour matrix, written
with `a = 1 - amount`). -/
def sepiaF (amount : ℚ) (c : RGB) : RGB :=
  let a := 1 - amount
  ⟨(0.393 + 0.607 * a) * c.r + (0.769 - 0.769 * a) * c.g + (0.189 - 0.189 * a) * c.b,
   (0.349 - 0.349 * a) * c.r + (0.686 + 0.314 * a) * c.g + (0.168 - 0.168 * a) * c.b,
   (0.272 - 0.272 * a) * c.r + (0.534 - 0.534 * a) * c.g + (0.131 + 0.869 * a) * c.b⟩

/-- The symmetric window of integer offsets used by the blur stand-in. -/
def blurWindow (n : ℕ) : List ℤ :=
  (List.range (2 * n + 1)).map (fun (i : ℕ) => (i : ℤ) - (n : ℤ))

/-- Modelled from the spec: the Gaussian-style blur.  Radius 0 is the
identity (the spec demands a true no-op); a positive radius is modelled as a
normalised average over the window of side `2 * ceil radius + 1`, a stand-in
for the Gaussian kernel with the same support and normalisation. -/
def blurF (radius : ℚ) (img : BitmapImage) : BitmapImage :=
  if radius = 0 then img
  else
    fun x y =>
      let offs := blurWindow ⌈radius⌉.toNat
      let cells := offs.flatMap (fun i => offs.map (fun j => img (x + i) (y + j)))
      let N : ℚ := cells.length
      ⟨(cells.map RGB.r).sum / N, (cells.map RGB.g).sum / N, (cells.map RGB.b).sum / N⟩

/-- The per-pixel part of the pipeline, in the order fixed by the filter
string of src/App.tsx line 221: brightness, contrast, saturate, grayscale,
sepia. -/
def colorTransform (adjs : AdjustmentSettings) (c : RGB) : RGB :=
  sepiaF (adjs.sepia / 100)
    (grayscaleF (adjs.grayscale / 100)
      (saturateF (adjs.saturation / 100)
        (contrastF (adjs.contrast / 100)
          (brightnessF (adjs.brightness / 100) c))))

/-- The full adjustment pipeline: the five colour stages per pixel, then the
blur, exactly the stage order of the filter string. -/
def applyAdjustments (adjs : AdjustmentSettings) (img : BitmapImage) : BitmapImage :=
  blurF adjs.blur (fun x y => colorTransform adjs (img x y))

/-- The declared valid ranges of the six knobs (src/unnamed/part_000 lines
1-8 and the slider bounds of src/App.tsx lines 444-447). -/
def adjustmentsInRange (adjs : AdjustmentSettings) : Prop :=
  0 ≤ adjs.brightness ∧ adjs.brightness ≤ 200 ∧
  0 ≤ adjs.contrast ∧ adjs.contrast ≤ 200 ∧
  0 ≤ adjs.saturation ∧ adjs.saturation ≤ 200 ∧
  0 ≤ adjs.grayscale ∧ adjs.grayscale ≤ 100 ∧
  0 ≤ adjs.sepia ∧ adjs.sepia ≤ 100 ∧
  0 ≤ adjs.blur ∧ adjs.blur ≤ 20

instance (adjs : AdjustmentSettings) : Decidable (adjustmentsInRange adjs) := by
  unfold adjustmentsInRange; infer_instance

lemma mem_addedOverlays (ops : List (String × Nat)) (o : TextOverlay)
    (h : o ∈ addedOverlays ops) : ∃ q ∈ ops, o.id = Nat.repr q.2 := by
  induction ops with
  | nil => simp [addedOverlays] at h
  | cons p t ih =>
    rw [addedOverlays] at h
    rcases List.mem_append.mp h with h1 | h2
    · by_cases hp : (jsTrim p.1) = ""
      · rw [if_pos hp] at h1; simp at h1
      · rw [if_neg hp] at h1
        obtain rfl := by simpa using h1
        exact ⟨p, by simp, rfl⟩
    · obtain ⟨q, hq, hid⟩ := ih h2
      exact ⟨q, by simp [hq], hid⟩

/-! ### Concrete fixtures used by counterexamples and witnesses -/

/-- A measurement oracle that reports width 100 for every text. -/
def constMeasure : TextMeasure := fun _ _ => 100

/-- A sample overlay as `handleAddText` creates it. -/
def sampleOverlay : TextOverlay :=
  { id := "1", text := "HELLO", x := 50, y := 50, color := "#00ff00",
    fontSize := 48, fontFamily := "Share Tech Mono" }

/-- A second sample overlay at the same position. -/
def sampleOverlayB : TextOverlay :=
  { sampleOverlay with id := "2", text := "WORLD" }

/-- A session with one overlay present and selected. -/
def selectedOneOverlayState : AppState :=
  { initialState with currentImage := some "blob:thumb",
                      textOverlays := [sampleOverlay], selectedTextId := some "1" }

/-- A busy session (a long-running operation in flight). -/
def busyState : AppState :=
  { selectedOneOverlayState with isProcessing := true, aiPrompt := "prompt" }

/-! ### Claims -/

/-- C1: the claim states that the selection always references an existing
overlay id or is empty, and in particular that `remove(id)` of the selected
overlay clears the selection.  The code violates this: the delete button
(src/App.tsx line 521) filters the overlay list but never writes
`selectedTextId`, and the AI-edit success path (src/App.tsx lines 289-292)
clears the overlay list while also leaving `selectedTextId` untouched.  This
theorem evaluates both operations at a state whose only overlay `"1"` is
selected: afterwards the list is empty while the selection still holds
`"1"`. -/
theorem remove_leaves_dangling_selection :
    ((deleteOverlay "1" selectedOneOverlayState).textOverlays = [] ∧
      (deleteOverlay "1" selectedOneOverlayState).selectedTextId = some "1") ∧
    ((handleGeminiEdit (Except.ok "img2") busyState).textOverlays = [] ∧
      (handleGeminiEdit (Except.ok "img2") busyState).selectedTextId = some "1") := by
  refine ⟨⟨?_, ?_⟩, ⟨?_, ?_⟩⟩ <;> rfl

/-- C2: with `selectedId = none` the command stream `drawToCanvas` issues is
independent of whether the target is the preview surface or the export
surface, for every bitmap, adjustment record, overlay list and measurement
oracle; equal command streams rasterise to byte-identical pixels.  The only
surface-dependent instruction is the selection box, guarded by
`selectionId === overlay.id && canvas === canvasRef.current`
(src/App.tsx line 247), which never fires when `selectionId` is `none`. -/
theorem render_parity_preview_export (m : TextMeasure) (iw ih : ℚ) (imgSrc : String)
    (adjs : AdjustmentSettings) (overlays : List TextOverlay) (surfA surfB : Bool) :
    drawToCanvas m surfA iw ih imgSrc adjs overlays none =
      drawToCanvas m surfB iw ih imgSrc adjs overlays none := by
  have hcmds : ∀ surf : Bool, overlayCmds m iw ih surf none = fun o =>
      [DrawCmd.text o.text (drawFontSpec o iw) o.color "rgba(0,0,0,1)" 0 4 4
        "center" "middle" (anchorX o iw) (anchorY o ih)] := by
    intro surf; funext o; simp [overlayCmds]
  rw [drawToCanvas, drawToCanvas, hcmds surfA, hcmds surfB]

/-- C3: while the busy flag is set, clicking any of the three long-running
operations (export, fetch, AI edit) is rejected by the disabled guard of the
corresponding control (src/App.tsx lines 337, 347, 382) and the session
state is left entirely unchanged. -/
theorem busy_rejects_long_running (s : AppState) (rm : String → Option String)
    (fetchResult : Option String) (geminiResult : Except String String)
    (h : s.isProcessing = true) :
    clickDownload s = s ∧ clickFetch rm fetchResult s = s ∧
      clickGeminiEdit geminiResult s = s := by
  refine ⟨?_, ?_, ?_⟩ <;> simp [clickDownload, clickFetch, clickGeminiEdit, h]

/-- Witness for C3 at a concrete busy session. -/
theorem busy_rejects_long_running_witness :
    busyState.isProcessing = true ∧
      (clickDownload busyState = busyState ∧
        clickFetch (fun _ => none) none busyState = busyState ∧
        clickGeminiEdit (Except.ok "x") busyState = busyState) :=
  ⟨rfl, busy_rejects_long_running busyState (fun _ => none) none (Except.ok "x") rfl⟩

/-- C8: `handleAddText` is a no-op on the overlay list and the selection when
the text trims to empty; otherwise it appends exactly one overlay at
(50, 50) with colour `#00ff00`, font size 48 and family `Share Tech Mono`,
and selects it. -/
theorem addText_spec (time : Nat) (s : AppState) :
    ((jsTrim s.newText) = "" →
      (handleAddText time s).textOverlays = s.textOverlays ∧
        (handleAddText time s).selectedTextId = s.selectedTextId) ∧
    ((jsTrim s.newText) ≠ "" →
      (handleAddText time s).textOverlays = s.textOverlays ++
        [{ id := Nat.repr time, text := s.newText, x := 50, y := 50,
           color := "#00ff00", fontSize := 48, fontFamily := "Share Tech Mono" }] ∧
        (handleAddText time s).selectedTextId = some (Nat.repr time)) := by
  constructor
  · intro h; simp [handleAddText, h]
  · intro h; simp [handleAddText, h]

/-- Witness for C8: the empty input is a no-op; the input `HELLO` appends and
selects. -/
theorem addText_spec_witness :
    ((jsTrim initialState.newText) = "" ∧
      (handleAddText 0 initialState).textOverlays = initialState.textOverlays ∧
        (handleAddText 0 initialState).selectedTextId = initialState.selectedTextId) ∧
    (jsTrim ({ initialState with newText := "HELLO" } : AppState).newText ≠ "" ∧
      (handleAddText 1 { initialState with newText := "HELLO" }).textOverlays =
        ({ initialState with newText := "HELLO" } : AppState).textOverlays ++
          [{ id := Nat.repr 1, text := "HELLO", x := 50, y := 50,
             color := "#00ff00", fontSize := 48, fontFamily := "Share Tech Mono" }] ∧
        (handleAddText 1 { initialState with newText := "HELLO" }).selectedTextId =
          some (Nat.repr 1)) :=
  ⟨⟨rfl, (addText_spec 0 initialState).1 rfl⟩,
   ⟨by decide, (addText_spec 1 { initialState with newText := "HELLO" }).2 (by decide)⟩⟩

lemma addedOverlays_ids_pairwise (ops : List (String × Nat))
    (h : ops.Pairwise (fun p q => p.2 ≠ q.2)) :
    List.Pairwise (fun a b => a ≠ b) ((addedOverlays ops).map TextOverlay.id) := by
  induction ops with
  | nil => simp [addedOverlays]
  | cons p t ih =>
    obtain ⟨hhead, htail⟩ := List.pairwise_cons.mp h
    rw [addedOverlays]
    by_cases hp : (jsTrim p.1) = ""
    · rw [if_pos hp]
      simpa using ih htail
    · rw [if_neg hp]
      simp only [List.singleton_append, List.map_cons, List.pairwise_cons]
      refine ⟨?_, ih htail⟩
      intro x hx
      obtain ⟨o, ho, rfl⟩ := List.mem_map.mp hx
      obtain ⟨q, hq, hoid⟩ := mem_addedOverlays t o ho
      show Nat.repr p.2 ≠ o.id
      rw [hoid]
      intro hcontra
      exact hhead q hq (natRepr_injective hcontra)

/-- C5 counterexample: two adds in the same millisecond (both at `Date.now()`
value 5) assign the identifier `"5"` twice, so the identifiers of the created
overlays are not pairwise distinct and the claim as stated is false. -/
theorem add_ids_reused_same_millisecond :
    ((runAdds initialState [("A", 5), ("B", 5)]).textOverlays.map TextOverlay.id) =
        ["5", "5"] ∧
      ¬List.Pairwise (fun a b => a ≠ b)
        ((runAdds initialState [("A", 5), ("B", 5)]).textOverlays.map TextOverlay.id) := by
  constructor
  · decide
  · decide

/-- C5 (amended): the identifier assigned by an add is the decimal string of
its `Date.now()` millisecond timestamp, so the identifiers of the created
overlays are pairwise distinct whenever the adds occur at pairwise distinct
timestamps (and only identifier reuse between same-millisecond adds is
possible). -/
theorem add_ids_distinct_for_distinct_times (s : AppState)
    (ops : List (String × Nat)) (h : ops.Pairwise (fun p q => p.2 ≠ q.2)) :
    (runAdds s ops).textOverlays = s.textOverlays ++ addedOverlays ops ∧
      List.Pairwise (fun a b => a ≠ b) ((addedOverlays ops).map TextOverlay.id) :=
  ⟨runAdds_textOverlays ops s, addedOverlays_ids_pairwise ops h⟩

/-- Witness for C5 (amended): two adds at distinct timestamps 1 and 2. -/
theorem add_ids_distinct_for_distinct_times_witness :
    List.Pairwise (fun p q => p.2 ≠ q.2) ([("A", 1), ("B", 2)] : List (String × Nat)) ∧
      ((runAdds initialState [("A", 1), ("B", 2)]).textOverlays =
        initialState.textOverlays ++ addedOverlays [("A", 1), ("B", 2)] ∧
        List.Pairwise (fun a b => a ≠ b)
          ((addedOverlays [("A", 1), ("B", 2)]).map TextOverlay.id)) :=
  ⟨by decide,
   add_ids_distinct_for_distinct_times initialState [("A", 1), ("B", 2)] (by decide)⟩

/-- C4 counterexample: the claim asserts the dashed selection outline has
exactly the same width, height and centre as the hit-test box.  At a concrete
overlay (font size 48, canvas width 1000, every text measured as 100 wide)
the outline is 120 by 68 while the hit-test box is 100 by 48: the dimensions
differ (by the 20-pixel padding of src/App.tsx lines 249-250), so the claim
as stated is false. -/
theorem selection_outline_not_hit_box :
    selBoxWidth constMeasure sampleOverlay 1000 = 120 ∧
      hitBoxWidth constMeasure sampleOverlay 1000 = 100 ∧
      selBoxHeight sampleOverlay 1000 = 68 ∧
      hitBoxHeight sampleOverlay 1000 = 48 ∧
      ¬(selBoxWidth constMeasure sampleOverlay 1000 =
          hitBoxWidth constMeasure sampleOverlay 1000 ∧
        selBoxHeight sampleOverlay 1000 = hitBoxHeight sampleOverlay 1000) := by
  norm_num [selBoxWidth, hitBoxWidth, selBoxHeight, hitBoxHeight, fontSizePx,
    constMeasure, sampleOverlay]

/-- C4 (amended): for a selected overlay rendered on the preview surface the
compositor emits exactly one dashed selection box; its centre coincides with
the centre of the hit-test box (the overlay's pixel anchor), while its width
and height each exceed the hit-test box's by exactly 20 pixels — provided the
measurement oracle reports the same width under the drawing font specification
(which carries a `, monospace` fallback, src/App.tsx line 232) as under the
hit-test font specification (src/App.tsx line 153). -/
theorem selection_outline_geometry (m : TextMeasure) (cw ch : ℚ) (o : TextOverlay)
    (hmeas : m (drawFontSpec o cw) o.text = m (hitFontSpec o cw) o.text) :
    overlayCmds m cw ch true (some o.id) o =
      [DrawCmd.text o.text (drawFontSpec o cw) o.color "rgba(0,0,0,1)" 0 4 4
        "center" "middle" (anchorX o cw) (anchorY o ch),
       DrawCmd.selectionBox
         (anchorX o cw - (hitBoxWidth m o cw + 20) / 2)
         (anchorY o ch - (hitBoxHeight o cw + 20) / 2)
         (hitBoxWidth m o cw + 20) (hitBoxHeight o cw + 20) "#00ff00" 2 [5, 5]] := by
  simp [overlayCmds, selBoxWidth, selBoxHeight, hitBoxWidth, hitBoxHeight, hmeas]

/-- Witness for C4 (amended) at a concrete overlay and oracle. -/
theorem selection_outline_geometry_witness :
    constMeasure (drawFontSpec sampleOverlay 1000) sampleOverlay.text =
        constMeasure (hitFontSpec sampleOverlay 1000) sampleOverlay.text ∧
      overlayCmds constMeasure 1000 1000 true (some sampleOverlay.id) sampleOverlay =
        [DrawCmd.text sampleOverlay.text (drawFontSpec sampleOverlay 1000)
          sampleOverlay.color "rgba(0,0,0,1)" 0 4 4 "center" "middle"
          (anchorX sampleOverlay 1000) (anchorY sampleOverlay 1000),
         DrawCmd.selectionBox
           (anchorX sampleOverlay 1000 -
             (hitBoxWidth constMeasure sampleOverlay 1000 + 20) / 2)
           (anchorY sampleOverlay 1000 -
             (hitBoxHeight sampleOverlay 1000 + 20) / 2)
           (hitBoxWidth constMeasure sampleOverlay 1000 + 20)
           (hitBoxHeight sampleOverlay 1000 + 20) "#00ff00" 2 [5, 5]] :=
  ⟨rfl, selection_outline_geometry constMeasure 1000 1000 sampleOverlay rfl⟩

/-- C6: the hit tester scans the overlay list from the last-inserted
(topmost) element downwards and returns the first containing overlay.
Equivalently: it returns `none` exactly when no bounding box contains the
point; any returned overlay contains the point and every overlay inserted
after it does not; and for two overlapping overlays inserted in order
`[A, B]`, a point inside both resolves to `B`. -/
theorem hitTester_topmost (m : TextMeasure) (cw ch px py : ℚ) (L : List TextOverlay) :
    (hitOverlay m cw ch L px py = none ↔
      ∀ o ∈ L, containsPoint m cw ch o px py = false) ∧
    (∀ o, hitOverlay m cw ch L px py = some o →
      containsPoint m cw ch o px py = true ∧
      ∃ l1 l2, L = l1 ++ o :: l2 ∧ ∀ q ∈ l2, containsPoint m cw ch q px py = false) ∧
    (∀ A B, containsPoint m cw ch A px py = true →
      containsPoint m cw ch B px py = true →
      hitOverlay m cw ch [A, B] px py = some B) := by
  refine ⟨?_, ?_, ?_⟩
  · rw [hitOverlay, List.find?_eq_none]
    constructor
    · intro h o ho
      have := h o (List.mem_reverse.mpr ho)
      simpa using this
    · intro h o ho
      simp [h o (List.mem_reverse.mp ho)]
  · intro o h
    exact find?_reverse_some _ L o h
  · intro A B hA hB
    simp [hitOverlay, hB]

/-- Witness for C6: two overlapping sample overlays, a point inside both;
the scan resolves to the second (topmost). -/
theorem hitTester_topmost_witness :
    containsPoint constMeasure 1000 1000 sampleOverlay 500 500 = true ∧
      containsPoint constMeasure 1000 1000 sampleOverlayB 500 500 = true ∧
      hitOverlay constMeasure 1000 1000 [sampleOverlay, sampleOverlayB] 500 500 =
        some sampleOverlayB := by
  have hA : containsPoint constMeasure 1000 1000 sampleOverlay 500 500 = true := by
    norm_num [containsPoint, anchorX, anchorY, hitBoxWidth, hitBoxHeight,
      fontSizePx, constMeasure, sampleOverlay]
  have hB : containsPoint constMeasure 1000 1000 sampleOverlayB 500 500 = true := by
    norm_num [containsPoint, anchorX, anchorY, hitBoxWidth, hitBoxHeight,
      fontSizePx, constMeasure, sampleOverlay, sampleOverlayB]
  exact ⟨hA, hB,
    (hitTester_topmost constMeasure 1000 1000 500 500
      [sampleOverlay, sampleOverlayB]).2.2 sampleOverlay sampleOverlayB hA hB⟩

/-- C7: a pointer-down at `(px, py)` that hits overlay `o` followed by a
pointer-move to `(px + dx, py + dy)` moves the pixel anchor of every overlay
carrying the hit id by exactly `(dx, dy)`: the recorded drag offset prevents
any snap of the centre to the pointer.  (Exact in rational arithmetic; the
source computes the same expressions in floating point.) -/
theorem drag_moves_anchor_by_delta (m : TextMeasure) (cw ch px py dx dy : ℚ)
    (s : AppState) (o : TextOverlay)
    (hcw : cw ≠ 0) (hch : ch ≠ 0)
    (himg : ¬s.currentImage = none)
    (hhit : hitOverlay m cw ch s.textOverlays px py = some o) :
    ∀ t ∈ (handleCanvasMouseMove cw ch (px + dx) (py + dy)
            (handleCanvasMouseDown m cw ch px py s)).textOverlays,
      t.id = o.id →
        anchorX t cw = anchorX o cw + dx ∧ anchorY t ch = anchorY o ch + dy := by
  intro t ht hid
  rw [handleCanvasMouseDown, if_neg himg, hhit] at ht
  rw [handleCanvasMouseMove] at ht
  simp only [Bool.not_true, Bool.false_eq_true, false_or] at ht
  rw [if_neg (by simp)] at ht
  simp only [List.mem_map] at ht
  obtain ⟨t0, ht0, rfl⟩ := ht
  by_cases hcase : some t0.id = some o.id
  · rw [if_pos hcase] at hid ⊢
    constructor
    · rw [anchorX]
      show (px + dx - (px - anchorX o cw)) / cw * 100 / 100 * cw = anchorX o cw + dx
      field_simp
      ring
    · rw [anchorY]
      show (py + dy - (py - anchorY o ch)) / ch * 100 / 100 * ch = anchorY o ch + dy
      field_simp
      ring
  · rw [if_neg hcase] at hid
    exact absurd (congrArg some hid) hcase

/-- Witness for C7: dragging the sample overlay from (500, 500) by
(30, -40). -/
theorem drag_moves_anchor_by_delta_witness :
    (1000 : ℚ) ≠ 0 ∧
      ¬selectedOneOverlayState.currentImage = none ∧
      hitOverlay constMeasure 1000 1000 selectedOneOverlayState.textOverlays 500 500 =
        some sampleOverlay ∧
      (∀ t ∈ (handleCanvasMouseMove 1000 1000 (500 + 30) (500 + (-40))
              (handleCanvasMouseDown constMeasure 1000 1000 500 500
                selectedOneOverlayState)).textOverlays,
        t.id = sampleOverlay.id →
          anchorX t 1000 = anchorX sampleOverlay 1000 + 30 ∧
            anchorY t 1000 = anchorY sampleOverlay 1000 + (-40)) := by
  have hne : (1000 : ℚ) ≠ 0 := by norm_num
  have himg : ¬selectedOneOverlayState.currentImage = none := by
    simp [selectedOneOverlayState]
  have hhit : hitOverlay constMeasure 1000 1000
      selectedOneOverlayState.textOverlays 500 500 = some sampleOverlay := by
    have hA : containsPoint constMeasure 1000 1000 sampleOverlay 500 500 = true := by
      norm_num [containsPoint, anchorX, anchorY, hitBoxWidth, hitBoxHeight,
        fontSizePx, constMeasure, sampleOverlay]
    simp [hitOverlay, selectedOneOverlayState, hA]
  exact ⟨hne, himg, hhit,
    drag_moves_anchor_by_delta constMeasure 1000 1000 500 500 30 (-40)
      selectedOneOverlayState sampleOverlay hne hne himg hhit⟩

/-- C10: whatever the regular-expression engine reports as capture group 7,
`getYouTubeID` returns either `none` or a string of exactly 11 characters,
because of its length guard. -/
theorem getYouTubeID_length (rm : String → Option String) (url idStr : String)
    (h : getYouTubeID rm url = some idStr) : idStr.length = 11 := by
  cases hm : rm url with
  | none => simp [getYouTubeID, hm] at h
  | some g7 =>
    simp only [getYouTubeID, hm] at h
    by_cases hl : g7.length = 11
    · rw [if_pos hl] at h
      obtain rfl : g7 = idStr := by simpa using h
      exact hl
    · rw [if_neg hl] at h; simp at h

/-- Witness for C10 at a concrete 11-character capture. -/
theorem getYouTubeID_length_witness :
    getYouTubeID (fun _ => some "dQw4w9WgXcQ") "url" = some "dQw4w9WgXcQ" ∧
      ("dQw4w9WgXcQ" : String).length = 11 :=
  ⟨by decide, getYouTubeID_length (fun _ => some "dQw4w9WgXcQ") "url" "dQw4w9WgXcQ" (by decide)⟩

/-! ### Lemmas about the blur stand-in -/

/-- The stripe test image: white on the column `x = 0`, black elsewhere. -/
def stripeImage : BitmapImage := fun x _ => if x = 0 then ⟨1, 1, 1⟩ else ⟨0, 0, 0⟩

lemma blurWindow_length (n : ℕ) : (blurWindow n).length = 2 * n + 1 := by
  rw [blurWindow, List.length_map, List.length_range]

lemma blurWindow_nodup (n : ℕ) : (blurWindow n).Nodup := by
  rw [blurWindow]
  refine List.Nodup.map ?_ (List.nodup_range _)
  intro a b hab
  have hab2 : (a : ℤ) - n = (b : ℤ) - n := hab
  omega

lemma zero_mem_blurWindow (n : ℕ) : (0 : ℤ) ∈ blurWindow n := by
  rw [blurWindow, List.mem_map]
  refine ⟨n, List.mem_range.mpr (by omega), ?_⟩
  exact sub_self _

lemma count_zero_blurWindow (n : ℕ) : (blurWindow n).count 0 = 1 :=
  List.count_eq_one_of_mem (blurWindow_nodup n) (zero_mem_blurWindow n)

lemma sum_map_ite_zero (l : List ℤ) (v : ℚ) :
    (l.map (fun i => if i = 0 then v else 0)).sum = (l.count 0 : ℚ) * v := by
  induction l with
  | nil => simp
  | cons a t ih =>
    by_cases ha : a = 0
    · subst ha
      simp [ih, List.count_cons]
      ring
    · simp [ha, ih, List.count_cons, Ne.symm ha]

lemma blurF_const (radius : ℚ) (c : RGB) :
    blurF radius (fun _ _ => c) = fun _ _ => c := by
  unfold blurF
  split
  · rfl
  · funext x y
    have hcells : ((blurWindow ⌈radius⌉.toNat).flatMap fun i =>
        (blurWindow ⌈radius⌉.toNat).map fun _ => c) =
        List.replicate ((2 * ⌈radius⌉.toNat + 1) * (2 * ⌈radius⌉.toNat + 1)) c := by
      rw [List.flatMap_def]
      rw [show ((blurWindow ⌈radius⌉.toNat).map fun _ => c) =
        List.replicate (2 * ⌈radius⌉.toNat + 1) c from by
          rw [List.map_const', blurWindow_length]]
      rw [List.map_const', blurWindow_length, List.flatten_replicate_replicate]
    simp only []
    rw [hcells]
    have hN : (((2 * ⌈radius⌉.toNat + 1) * (2 * ⌈radius⌉.toNat + 1) : ℕ) : ℚ) ≠ 0 := by
      positivity
    simp only [List.map_replicate, List.sum_replicate, List.length_replicate,
      nsmul_eq_mul]
    obtain ⟨cr, cg, cb⟩ := c
    simp only [RGB.mk.injEq]
    refine ⟨?_, ?_, ?_⟩ <;> field_simp

lemma blurF_zero (img : BitmapImage) : blurF 0 img = img := by
  rw [blurF, if_pos rfl]

lemma blurF_stripe_r (radius : ℚ) (hr : radius ≠ 0) :
    (blurF radius stripeImage 0 0).r =
      1 / (2 * (⌈radius⌉.toNat : ℚ) + 1) := by
  simp only [blurF, if_neg hr]
  set n := ⌈radius⌉.toNat with hn
  have h1 : ∀ i : ℤ, (((blurWindow n).map fun j => stripeImage (0 + i) (0 + j)).map RGB.r).sum
      = if i = 0 then ((2 * n + 1 : ℕ) : ℚ) else 0 := by
    intro i
    rw [List.map_map]
    have hf : (RGB.r ∘ fun j => stripeImage (0 + i) (0 + j)) =
        fun _ => if i = 0 then (1 : ℚ) else 0 := by
      funext j
      simp only [Function.comp, stripeImage, zero_add]
      split
      · rfl
      · rfl
    rw [hf, List.map_const', List.sum_replicate, blurWindow_length]
    split
    · simp
    · simp
  have h2 : ((((blurWindow n).flatMap fun i =>
      (blurWindow n).map fun j => stripeImage (0 + i) (0 + j)).map RGB.r)).sum
      = ((2 * n + 1 : ℕ) : ℚ) := by
    rw [List.map_flatMap, List.flatMap_def, List.sum_flatten, List.map_map]
    simp only [Function.comp_def]
    rw [List.map_congr_left (fun i _ => h1 i)]
    rw [sum_map_ite_zero, count_zero_blurWindow]
    simp
  have h3 : ((blurWindow n).flatMap fun i =>
      (blurWindow n).map fun j => stripeImage (0 + i) (0 + j)).length
      = (2 * n + 1) * (2 * n + 1) := by
    rw [List.flatMap_def, List.length_flatten, List.map_map]
    have hf : (List.length ∘ fun i => (blurWindow n).map fun j => stripeImage (0 + i) (0 + j)) =
        fun _ => 2 * n + 1 := by
      funext i
      simp [blurWindow_length]
    rw [hf, List.map_const', List.sum_replicate, blurWindow_length, smul_eq_mul]
  show (((blurWindow n).flatMap fun i =>
      (blurWindow n).map fun j => stripeImage (0 + i) (0 + j)).map RGB.r).sum /
        (((blurWindow n).flatMap fun i =>
          (blurWindow n).map fun j => stripeImage (0 + i) (0 + j)).length : ℚ) =
      1 / (2 * (n : ℚ) + 1)
  rw [h2, h3]
  have hpos : (2 * (n : ℚ) + 1) ≠ 0 := by positivity
  push_cast
  field_simp

lemma colorTransform_neutral (bl : ℚ) (c : RGB) :
    colorTransform ⟨100, 100, 100, 0, 0, bl⟩ c = c := by
  obtain ⟨cr, cg, cb⟩ := c
  simp only [colorTransform, sepiaF, grayscaleF, saturateF, contrastF, brightnessF,
    RGB.mk.injEq]
  norm_num

lemma applyAdjustments_default (img : BitmapImage) :
    applyAdjustments DEFAULT_ADJUSTMENTS img = img := by
  rw [applyAdjustments]
  have h1 : (fun x y => colorTransform DEFAULT_ADJUSTMENTS (img x y)) = img := by
    funext x y
    exact colorTransform_neutral 0 (img x y)
  rw [h1]
  exact blurF_zero img

/-- C9: the adjustment pipeline is the identity transform exactly when all six
parameters (within their declared ranges) equal their defaults
(100, 100, 100, 0, 0, 0): the defaults reproduce every bitmap unmodified with
blur 0 a true no-op, and conversely any in-range setting that reproduces
every bitmap is the default one. -/
theorem adjustments_identity_iff_default (adjs : AdjustmentSettings)
    (hrange : adjustmentsInRange adjs) :
    (∀ (img : BitmapImage) (x y : ℤ), applyAdjustments adjs img x y = img x y) ↔
      adjs = DEFAULT_ADJUSTMENTS := by
  constructor
  · intro H
    have Hc : ∀ c : RGB, colorTransform adjs c = c := by
      intro c
      have h := H (fun _ _ => c) 0 0
      rw [applyAdjustments] at h
      rw [blurF_const] at h
      exact h
    obtain ⟨br, kc, sa, gr, se, bl⟩ := adjs
    obtain ⟨hbr0, hbr1, hkc0, hkc1, hsa0, hsa1, hgr0, hgr1, hse0, hse1, hbl0, hbl1⟩ := hrange
    have h0 := Hc ⟨0, 0, 0⟩
    have h1 := Hc ⟨1, 1, 1⟩
    have h2 := Hc ⟨1, 0, 0⟩
    simp only [colorTransform, sepiaF, grayscaleF, saturateF, contrastF, brightnessF,
      RGB.mk.injEq] at h0 h1 h2
    obtain ⟨h0r, h0g, h0b⟩ := h0
    obtain ⟨h1r, h1g, h1b⟩ := h1
    obtain ⟨h2r, h2g, h2b⟩ := h2
    have hkc : kc = 100 := by
      linear_combination (10150/37 : ℚ) * h0r - (17550/37 : ℚ) * h0g
    rw [hkc] at h1r h1g
    have hse : se = 0 := by
      linear_combination (100 * ((1 + 0.00351 * se) / 0.148) - se) * h1r -
        (100 * ((1 + 0.00351 * se) / 0.148)) * h1g
    rw [hse] at h1r
    have hbr : br = 100 := by
      linear_combination (100 : ℚ) * h1r
    rw [hkc, hse, hbr] at h2r h2g
    have hprod : (1 - gr / 100) * (sa / 100) = 1 := by
      linear_combination h2r - h2g
    have hsa : sa = 100 := by
      linear_combination (-250000 : ℚ) * h2g - 53150 * hprod
    rw [hsa] at hprod
    have hgr : gr = 0 := by
      linear_combination (-100 : ℚ) * hprod
    subst hkc hse hbr hsa hgr
    have hbl : bl = 0 := by
      by_contra hne
      have HS := H stripeImage 0 0
      rw [applyAdjustments] at HS
      have hct : (fun x y =>
          colorTransform ⟨100, 100, 100, 0, 0, bl⟩ (stripeImage x y)) = stripeImage := by
        funext x y
        rw [colorTransform_neutral]
      rw [hct] at HS
      have hr := congrArg RGB.r HS
      rw [blurF_stripe_r bl hne] at hr
      have hs00 : (stripeImage 0 0).r = 1 := rfl
      rw [hs00] at hr
      have hm : 1 ≤ ⌈bl⌉.toNat := by
        have hpos : (0 : ℚ) < bl := lt_of_le_of_ne hbl0 (Ne.symm hne)
        have : 0 < ⌈bl⌉ := Int.ceil_pos.mpr hpos
        omega
      have hmq : (1 : ℚ) ≤ (⌈bl⌉.toNat : ℚ) := by exact_mod_cast hm
      have hlt : 1 / (2 * (⌈bl⌉.toNat : ℚ) + 1) < 1 := by
        rw [div_lt_one (by positivity)]
        linarith
      rw [hr] at hlt
      exact absurd hlt (lt_irrefl 1)
    subst hbl
    rfl
  · intro h
    subst h
    intro img x y
    rw [applyAdjustments_default]

/-- A concrete midtone test image for the C9 witness. -/
def grayImage : BitmapImage := fun _ _ => ⟨1/2, 1/2, 1/2⟩

/-- Witness for C9: the defaults are in range and reproduce a concrete pixel
of a concrete image. -/
theorem adjustments_identity_iff_default_witness :
    adjustmentsInRange DEFAULT_ADJUSTMENTS ∧
      applyAdjustments DEFAULT_ADJUSTMENTS grayImage 0 0 = grayImage 0 0 :=
  ⟨by norm_num [adjustmentsInRange, DEFAULT_ADJUSTMENTS],
   ((adjustments_identity_iff_default DEFAULT_ADJUSTMENTS
      (by norm_num [adjustmentsInRange, DEFAULT_ADJUSTMENTS])).mpr rfl) grayImage 0 0⟩
